import Mathlib

/-!
The ice-ar edge publisher: the retrying fetch index and the channel registry.

A shallow embedding of `edge/publisher/main.cpp`:

* `AnnotationConsumer` (`fetch`, `onComplete`, `onError`) over its `fetchers_` map;
* `AnnotationPublisher` (`publish`, `getHandlerForEngine`) over `namespaces_` / `handlers_`;
* `readAnnotations`, `dumpAnnotations` and one turn of the loop of `main`.

The ndn-cpp / cnl-cpp collaborators are kept at their boundary: a call into them is
recorded as an event, in program order.  Callbacks (`std::function` values) are opaque
identifiers; invoking one is an event as well, and a callback does not call back into the
consumer.  `GeneralizedContent::fetch` is taken not to throw (`fetch` would catch and log
a `std::exception` from it).  Frame numbers are `unsigned int` values on which no
arithmetic is done; they are natural numbers here.  `cout` logging is not modelled.
-/

namespace IceAr

/-! ## Names -/

/-- One component of an ndn `Name`: a generic component (`Name::append(string)`) or a
sequence-number component (`Name::appendSequenceNumber`). -/
inductive Component where
  | generic (value : String)
  | sequenceNumber (n : Nat)
  deriving DecidableEq, Repr

/-- An ndn `Name`: its ordered components. -/
structure Name where
  components : List Component
  deriving DecidableEq, Repr

/-- Embeds `Name::append(const std::string&)`. -/
def Name.append (n : Name) (value : String) : Name :=
  ⟨n.components ++ [Component.generic value]⟩

/-- Embeds `Name::appendSequenceNumber(uint64_t)`. -/
def Name.appendSequenceNumber (n : Name) (seqNo : Nat) : Name :=
  ⟨n.components ++ [Component.sequenceNumber seqNo]⟩

/-! ## `std::map` -/

section StdMap

variable {K V : Type} [DecidableEq K]

/-- Embeds `m.find(k)`: the mapped value, `none` for `m.end()`. -/
def mapFind : List (K × V) → K → Option V
  | [], _ => none
  | (k', v) :: m, k => if k' = k then some v else mapFind m k

/-- Embeds `m[k] = v`: overwrite the mapped value in place, insert when the key is new. -/
def mapAssign : List (K × V) → K → V → List (K × V)
  | [], k, v => [(k, v)]
  | (k', v') :: m, k, v => if k' = k then (k, v) :: m else (k', v') :: mapAssign m k v

/-- Embeds `m.erase(it)` for the iterator `it = m.find(k)`. -/
def mapErase : List (K × V) → K → List (K × V)
  | [], _ => []
  | (k', v) :: m, k => if k' = k then mapErase m k else (k', v) :: mapErase m k

/-- The keys held by the map. -/
def mapKeys (m : List (K × V)) : List K :=
  m.map Prod.fst

end StdMap

/-! ## Values exchanged with the collaborators -/

/-- Embeds `ndn::Blob`, by its raw bytes (`toRawStr` / `fromRawStr`). -/
abbrev Blob := String

/-- Embeds `GeneralizedContent::ErrorCode`, by its enumerator value. -/
abbrev ErrorCode := Nat

/-- Embeds `ndntools::ContentMetaInfo`, as far as `onComplete` reads it. -/
structure ContentMetaInfo where
  contentType : String
  hasSegments : Bool
  other : Blob
  deriving DecidableEq, Repr

/-- The `class AnnotationArray`. -/
structure AnnotationArray where
  jsonString_ : String
  deriving DecidableEq, Repr

/-- Embeds `AnnotationArray::get`. -/
def AnnotationArray.get (a : AnnotationArray) : String :=
  a.jsonString_

/-- Embeds `AnnotationArray(const Blob& b)`. -/
def AnnotationArray.ofBlob (b : Blob) : AnnotationArray :=
  ⟨b⟩

/-- An `OnAnnotation` function object, by identity. -/
structure OnAnnotation where
  id : Nat
  deriving DecidableEq, Repr

/-- An `OnFetchFailure` function object, by identity. -/
structure OnFetchFailure where
  id : Nat
  deriving DecidableEq, Repr

/-- What the consumer does to the outside world, in program order. -/
inductive Event where
  /-- The call `GeneralizedContent::fetch(*face_, name, 0, onComplete.., onError..)`. -/
  | fetchCall (name : Name)
  /-- The call `e.onAnnotation_(frameNo, a)`. -/
  | onAnnotationCall (cb : OnAnnotation) (frameNo : Nat) (a : AnnotationArray)
  /-- The call `e.onFetchFailure_(frameNo, errorCode, message)`. -/
  | onFetchFailureCall (cb : OnFetchFailure) (frameNo : Nat) (errorCode : ErrorCode)
      (message : String)
  deriving DecidableEq, Repr

/-- Is the event a network fetch? -/
def Event.isFetch : Event → Bool
  | .fetchCall _ => true
  | _ => false

/-- Is the event the invocation of a caller callback? -/
def Event.isCallback : Event → Bool
  | .fetchCall _ => false
  | _ => true

/-- The name of a network fetch. -/
def Event.fetchName : Event → Option Name
  | .fetchCall n => some n
  | _ => none

/-! ## `AnnotationConsumer` -/

/-- Embeds `AnnotationConsumer::FetcherListEntry`. -/
structure FetcherListEntry where
  onAnnotation_ : OnAnnotation
  onFetchFailure_ : OnFetchFailure
  frameNo_ : Nat
  retriesLeft_ : Nat
  deriving DecidableEq, Repr

/-- The `class AnnotationConsumer`; `face_` is represented by the `fetchCall` events. -/
structure AnnotationConsumer where
  basePrefix_ : Name
  instance_ : String
  fetchers_ : List (Name × FetcherListEntry)
  deriving DecidableEq, Repr

/-- The constructor `AnnotationConsumer(servicePrefix, instance, f)`. -/
def AnnotationConsumer.new (servicePrefix : Name) (inst : String) : AnnotationConsumer :=
  ⟨servicePrefix, inst, []⟩

/-- The name `fetch` builds: `basePrefix_ / seq(frameNo) / instance_`. -/
def AnnotationConsumer.nameOf (c : AnnotationConsumer) (frameNo : Nat) : Name :=
  (c.basePrefix_.appendSequenceNumber frameNo).append c.instance_

/-- Embeds `AnnotationConsumer::fetch`.  The entry is created with 3 retries, or only its
callbacks are replaced; `GeneralizedContent::fetch` follows on both branches. -/
def AnnotationConsumer.fetch (c : AnnotationConsumer) (frameNo : Nat)
    (onAnn : OnAnnotation) (onFetchFailure : OnFetchFailure) :
    AnnotationConsumer × List Event :=
  let name := c.nameOf frameNo
  let fetchers :=
    match mapFind c.fetchers_ name with
    | none => mapAssign c.fetchers_ name ⟨onAnn, onFetchFailure, frameNo, 3⟩
    | some e =>
      mapAssign c.fetchers_ name
        { e with onAnnotation_ := onAnn, onFetchFailure_ := onFetchFailure }
  ({ c with fetchers_ := fetchers }, [Event.fetchCall name])

/-- The result of a completion / error handler: the consumer and the events at the point
where the handler returned or threw, and the `what()` of the `std::runtime_error`. -/
structure Outcome where
  consumer : AnnotationConsumer
  events : List Event
  thrown : Option String
  deriving DecidableEq, Repr

/-- Embeds `AnnotationConsumer::onComplete`. -/
def AnnotationConsumer.onComplete (c : AnnotationConsumer) (metaInfo : ContentMetaInfo)
    (content : Blob) (objectName : Name) : Outcome :=
  match mapFind c.fetchers_ objectName with
  | some e =>
    let a :=
      if metaInfo.hasSegments then AnnotationArray.ofBlob content
      else AnnotationArray.ofBlob metaInfo.other
    { consumer := { c with fetchers_ := mapErase c.fetchers_ objectName }
      events := [Event.onAnnotationCall e.onAnnotation_ e.frameNo_ a]
      thrown := none }
  | none => { consumer := c, events := [], thrown := some "fetcher entry not found" }

/-- Embeds `AnnotationConsumer::onError`. -/
def AnnotationConsumer.onError (c : AnnotationConsumer) (errorCode : ErrorCode)
    (message : String) (objectName : Name) : Outcome :=
  match mapFind c.fetchers_ objectName with
  | some e =>
    if e.retriesLeft_ > 0 then
      let c1 : AnnotationConsumer :=
        { c with
          fetchers_ :=
            mapAssign c.fetchers_ objectName { e with retriesLeft_ := e.retriesLeft_ - 1 } }
      let r := c1.fetch e.frameNo_ e.onAnnotation_ e.onFetchFailure_
      { consumer := r.1, events := r.2, thrown := none }
    else
      { consumer := { c with fetchers_ := mapErase c.fetchers_ objectName }
        events := [Event.onFetchFailureCall e.onFetchFailure_ e.frameNo_ errorCode message]
        thrown := none }
  | none => { consumer := c, events := [], thrown := some "fetcher entry not found" }

/-! ## The consumer and the network together -/

/-- The consumer, the network fetches issued and not yet answered (each bound to its
name), the events so far, and the exception that escaped a handler, if one did. -/
structure World where
  consumer : AnnotationConsumer
  pending : List Name
  trace : List Event
  thrown : Option String
  deriving DecidableEq, Repr

/-- The world of a freshly constructed consumer. -/
def World.init (servicePrefix : Name) (inst : String) : World :=
  ⟨AnnotationConsumer.new servicePrefix inst, [], [], none⟩

/-- What can happen next: the caller calls `fetch`, or the network answers one outstanding
`GeneralizedContent::fetch` through the continuation bound to that fetch's name. -/
inductive Action where
  | fetch (frameNo : Nat) (onAnn : OnAnnotation) (onFetchFailure : OnFetchFailure)
  | complete (objectName : Name) (metaInfo : ContentMetaInfo) (content : Blob)
  | error (objectName : Name) (errorCode : ErrorCode) (message : String)
  deriving DecidableEq, Repr

/-- The names of the network fetches among the events. -/
def issued (events : List Event) : List Name :=
  events.filterMap Event.fetchName

/-- One action.  A completion or error is possible only for an outstanding network fetch,
which it consumes: `none` when there is no such fetch. -/
def World.step (w : World) : Action → Option World
  | .fetch frameNo onAnn onFetchFailure =>
    let r := w.consumer.fetch frameNo onAnn onFetchFailure
    some
      { consumer := r.1
        pending := w.pending ++ issued r.2
        trace := w.trace ++ r.2
        thrown := none }
  | .complete objectName metaInfo content =>
    if objectName ∈ w.pending then
      let o := w.consumer.onComplete metaInfo content objectName
      some
        { consumer := o.consumer
          pending := w.pending.erase objectName ++ issued o.events
          trace := w.trace ++ o.events
          thrown := o.thrown }
    else none
  | .error objectName errorCode message =>
    if objectName ∈ w.pending then
      let o := w.consumer.onError errorCode message objectName
      some
        { consumer := o.consumer
          pending := w.pending.erase objectName ++ issued o.events
          trace := w.trace ++ o.events
          thrown := o.thrown }
    else none

/-- A sequence of actions; it ends at the first exception. -/
def World.run : World → List Action → Option World
  | w, [] => some w
  | w, a :: rest =>
    match w.thrown with
    | some _ => some w
    | none =>
      match w.step a with
      | none => none
      | some w1 => World.run w1 rest

/-- The number of network fetches among the events. -/
def fetchCount (events : List Event) : Nat :=
  events.countP Event.isFetch

/-- The callback invocations among the events. -/
def callbacks (events : List Event) : List Event :=
  events.filter Event.isCallback

/-- Every entry is stored under the name of its own frame number.  This is an invariant of
the consumer: the constructor establishes it and the three operations keep it. -/
def WellKeyed (c : AnnotationConsumer) : Prop :=
  ∀ n e, mapFind c.fetchers_ n = some e → c.nameOf e.frameNo_ = n

/-- The error responses, as actions on the name. -/
def errorActions (n : Name) (errs : List (ErrorCode × String)) : List Action :=
  errs.map (fun e => Action.error n e.1 e.2)

/-- The world of a request for `frameNo` that has been retried `k` times: started from the
consumer `c` and the outstanding fetches `p`. -/
def retrying (c : AnnotationConsumer) (p : List Name) (frameNo : Nat) (a : OnAnnotation)
    (f : OnFetchFailure) (k : Nat) : World :=
  { consumer :=
      { c with fetchers_ := mapAssign c.fetchers_ (c.nameOf frameNo) ⟨a, f, frameNo, 3 - k⟩ }
    pending := p ++ [c.nameOf frameNo]
    trace := List.replicate (k + 1) (Event.fetchCall (c.nameOf frameNo))
    thrown := none }

/-! ## `AnnotationPublisher` -/

/-- A `cnl_cpp::Namespace` node as the publisher uses it: its name, the handler attached by
`setHandler` and whether `setFace` has been called on it. -/
structure Namespace where
  name : Name
  handler : Option Nat
  face : Bool
  deriving DecidableEq, Repr

/-- What the publisher does to cnl-cpp, in program order.  A
`GeneralizedObjectStreamHandler` object is known by its allocation number. -/
inductive PubEvent where
  /-- The call `std::make_shared<Namespace>(streamPrefix, keyChain_)`. -/
  | namespaceNew (name : Name)
  /-- The call `std::make_shared<GeneralizedObjectStreamHandler>()`. -/
  | handlerNew (h : Nat)
  /-- The call `namespaces_[engine]->setHandler(handlers_[engine])`. -/
  | setHandler (name : Name) (h : Nat)
  /-- The call `namespaces_[engine]->setFace(face_, onRegisterFailed)`. -/
  | setFace (name : Name)
  /-- The call `handler->setObject(sequenceNumber, contentBlob, contentType)`. -/
  | setObject (h : Nat) (sequenceNumber : Nat) (content : Blob) (contentType : String)
  deriving DecidableEq, Repr

/-- Is the event a `setFace` registration? -/
def PubEvent.isSetFace : PubEvent → Bool
  | .setFace _ => true
  | _ => false

/-- Is the event the construction of a `Namespace`? -/
def PubEvent.isNamespaceNew : PubEvent → Bool
  | .namespaceNew _ => true
  | _ => false

/-- Is the event the construction of a `GeneralizedObjectStreamHandler`? -/
def PubEvent.isHandlerNew : PubEvent → Bool
  | .handlerNew _ => true
  | _ => false

/-- Is the event a `setObject`? -/
def PubEvent.isSetObject : PubEvent → Bool
  | .setObject _ _ _ _ => true
  | _ => false

/-- The handler a `setObject` is called on. -/
def PubEvent.target : PubEvent → Option Nat
  | .setObject h _ _ _ => some h
  | _ => none

/-- The `class AnnotationPublisher`; `face_` and `keyChain_` are carried by the events,
`allocated_` counts the handler objects made so far (the identity of the next one). -/
structure AnnotationPublisher where
  baseName_ : Name
  namespaces_ : List (String × Namespace)
  handlers_ : List (String × Nat)
  allocated_ : Nat
  deriving DecidableEq, Repr

/-- The constructor `AnnotationPublisher(servicePrefix, face, keyChain)`. -/
def AnnotationPublisher.new (servicePrefix : Name) : AnnotationPublisher :=
  ⟨servicePrefix, [], [], 0⟩

/-- Embeds `AnnotationPublisher::getHandlerForEngine`: the publisher afterwards, the handler
returned and the calls made. -/
def AnnotationPublisher.getHandlerForEngine (p : AnnotationPublisher) (engine : String) :
    AnnotationPublisher × Nat × List PubEvent :=
  match mapFind p.handlers_ engine with
  | none =>
    let streamName := p.baseName_.append engine
    let h := p.allocated_
    ({ p with
        namespaces_ := mapAssign p.namespaces_ engine ⟨streamName, some h, true⟩
        handlers_ := mapAssign p.handlers_ engine h
        allocated_ := p.allocated_ + 1 },
      h,
      [.namespaceNew streamName, .handlerNew h, .setHandler streamName h, .setFace streamName])
  | some h => (p, h, [])

/-- Embeds `AnnotationPublisher::publish`.  The log line looks the handler up a second time. -/
def AnnotationPublisher.publish (p : AnnotationPublisher) (frameNo : Nat)
    (a : AnnotationArray) (engine : String) : AnnotationPublisher × List PubEvent :=
  let content := a.get
  let r1 := p.getHandlerForEngine engine
  let r2 := r1.1.getHandlerForEngine engine
  (r2.1, r1.2.2 ++ [PubEvent.setObject r1.2.1 frameNo content "application/json"] ++ r2.2.2)

/-- The arguments of one `publish` call. -/
structure PublishCall where
  frameNo : Nat
  a : AnnotationArray
  engine : String
  deriving DecidableEq, Repr

/-- A sequence of `publish` calls. -/
def AnnotationPublisher.publishAll :
    AnnotationPublisher → List PublishCall → AnnotationPublisher × List PubEvent
  | p, [] => (p, [])
  | p, call :: rest =>
    let r := p.publish call.frameNo call.a call.engine
    let r' := AnnotationPublisher.publishAll r.1 rest
    (r'.1, r.2 ++ r'.2)

/-- Is the event the `setFace` registration of the namespace with this name? -/
def PubEvent.isSetFaceOf (n : Name) : PubEvent → Bool
  | .setFace m => decide (m = n)
  | _ => false

/-- Every cached handler is the one attached to the cached namespace of its engine, which
is named `baseName_ / engine` and registered.  An invariant of the publisher. -/
def Registered (p : AnnotationPublisher) : Prop :=
  ∀ engine h, mapFind p.handlers_ engine = some h →
    mapFind p.namespaces_ engine = some ⟨p.baseName_.append engine, some h, true⟩

/-- The `setObject` calls among the events. -/
def setObjects (events : List PubEvent) : List PubEvent :=
  events.filter PubEvent.isSetObject

/-- The handlers the `setObject` calls among the events are made on. -/
def targets (events : List PubEvent) : List Nat :=
  events.filterMap PubEvent.target

/-! ## Ingestion: `dumpAnnotations`, `readAnnotations` and the main loop -/

/-- Modelled from the spec: the type tag of a `cJSON` item (`cJSON.h` is not among the
sources).  The spec speaks of fields that are missing or have the wrong type; these are
the types a field can have. -/
inductive CJsonType where
  | cJSON_Invalid
  | cJSON_False
  | cJSON_True
  | cJSON_NULL
  | cJSON_Number
  | cJSON_String
  | cJSON_Array
  | cJSON_Object
  | cJSON_Raw
  deriving DecidableEq, Repr

/-- Modelled from the spec: the `cJSON` item record of `cJSON.h`, by the members
`readAnnotations` and the lookups read: the type tag, the item's own name `string`, the
text `valuestring` (a null pointer unless the item holds text), the integer `valueint`
and the child items. -/
inductive CJson where
  | node (type : CJsonType) (string : Option String) (valuestring : Option String)
      (valueint : Int) (child : List CJson)

/-- The member `type`. -/
def CJson.type : CJson → CJsonType
  | .node t _ _ _ _ => t

/-- The member `string`, the name under which the item is stored in its parent. -/
def CJson.string : CJson → Option String
  | .node _ n _ _ _ => n

/-- The member `valuestring`; `none` is the null pointer. -/
def CJson.valuestring : CJson → Option String
  | .node _ _ v _ _ => v

/-- The member `valueint`. -/
def CJson.valueint : CJson → Int
  | .node _ _ _ i _ => i

/-- The chain of child items. -/
def CJson.child : CJson → List CJson
  | .node _ _ _ _ c => c

/-- The characters of a name with the upper-case ASCII letters lowered, as the
case-insensitive comparison of the lookup sees them. -/
def lowered (name : String) : List Char :=
  name.data.map Char.toLower

/-- Modelled from the spec: `cJSON_GetObjectItem` (`cJSON.c` is not among the sources):
the first child stored under the name, compared without regard to case; `none`, the null
pointer, when the field is missing. -/
def cJSON_GetObjectItem (object : Option CJson) (name : String) : Option CJson :=
  match object with
  | none => none
  | some item =>
    item.child.find?
      (fun c =>
        match c.string with
        | some n => decide (lowered n = lowered name)
        | none => false)

/-- Modelled from the spec: `cJSON_IsArray` (`cJSON.c` is not among the sources): false
for the null pointer, otherwise whether the item is an array. -/
def cJSON_IsArray (item : Option CJson) : Bool :=
  match item with
  | none => false
  | some i => decide (i.type = CJsonType.cJSON_Array)

/-- Modelled from the spec: `cJSON_IsNumber` (`cJSON.c` is not among the sources): false
for the null pointer, otherwise whether the item is a number. -/
def cJSON_IsNumber (item : Option CJson) : Bool :=
  match item with
  | none => false
  | some i => decide (i.type = CJsonType.cJSON_Number)

/-- Embeds `dumpAnnotations`, as far as control flow goes: the value of `db_pipe`
afterwards, or `none` for `exit(1)`.  `setup` is what `ipc_setupPubSinkSocket` returns
when it is called; `ipc_sendData` only leads to a log line. -/
def dumpAnnotations (setup : Int) (db_pipe : Int) : Option Int :=
  if db_pipe < 0 then
    if setup < 0 then none else some setup
  else some db_pipe

/-- How a call of `readAnnotations` ends. -/
inductive ReadResult where
  /-- The call returns `s`; `frameNo` and `engine` are the reference arguments and
  `db_pipe` the global afterwards. -/
  | returned (s : String) (frameNo : Nat) (engine : String) (db_pipe : Int)
  /-- The process ends in `exit(code)`. -/
  | exited (code : Nat)
  /-- A null pointer is dereferenced: `eng->valuestring` with `eng == NULL`. -/
  | nullDereference
  /-- A `std::string` is constructed from a null `char*`: `std::string(eng->valuestring)`
  with `valuestring == NULL`. -/
  | stringFromNull
  deriving DecidableEq, Repr

/-- Embeds `readAnnotations`.  `len` and `annotations` are what `ipc_readData` delivered;
`parse` and `print` stand for `cJSON_Parse` and `cJSON_Print`; `frameNo` and `engine` are
the reference arguments on entry.  `valueint` is an `int` stored into an `unsigned int`. -/
def readAnnotations (parse : String → Option CJson) (print : CJson → String)
    (setup : Int) (len : Int) (annotations : String) (frameNo : Nat) (engine : String)
    (db_pipe : Int) : ReadResult :=
  if len > 0 then
    match dumpAnnotations setup db_pipe with
    | none => .exited 1
    | some db =>
      match parse annotations with
      | some item =>
        let fNo := cJSON_GetObjectItem (some item) "playbackNo"
        let eng := cJSON_GetObjectItem (some item) "engine"
        let array := cJSON_GetObjectItem (some item) "annotations"
        if cJSON_IsArray array && cJSON_IsNumber fNo then
          match array, fNo with
          | some arr, some f =>
            match eng with
            | none => .nullDereference
            | some e =>
              match e.valuestring with
              | none => .stringFromNull
              | some v => .returned (print arr) (f.valueint % 2 ^ 32).toNat v db
          -- not reached: both tests are false for the null pointer
          | _, _ => .returned "" frameNo engine db
        else .returned "" frameNo engine db
      | none => .returned "" frameNo engine db
  else .returned "" frameNo engine db_pipe

/-- How one turn of the `while(enabled)` loop of `main` ends. -/
inductive LoopResult where
  /-- The loop goes on with this publisher, after these calls into cnl-cpp. -/
  | continued (apub : AnnotationPublisher) (events : List PubEvent) (frameNo : Nat)
      (db_pipe : Int)
  /-- The loop does not go on: `readAnnotations` did not return. -/
  | stopped (how : ReadResult)
  deriving DecidableEq, Repr

/-- One turn of the `while(enabled)` loop of `main`: `engine` starts empty, and `publish`
is dispatched when `readAnnotations` returned a non-empty string. -/
def mainLoopTurn (parse : String → Option CJson) (print : CJson → String) (setup : Int)
    (len : Int) (annotations : String) (apub : AnnotationPublisher) (frameNo : Nat)
    (db_pipe : Int) : LoopResult :=
  match readAnnotations parse print setup len annotations frameNo "" db_pipe with
  | .returned s frameNo1 engine db =>
    if s ≠ "" then
      LoopResult.continued (apub.publish frameNo1 ⟨s⟩ engine).1
        (apub.publish frameNo1 ⟨s⟩ engine).2 frameNo1 db
    else LoopResult.continued apub [] frameNo1 db
  | other => LoopResult.stopped other

/-! ## Concrete values used by the evaluations below -/

/-- A service prefix, `/icear/user/peter/object_recognizer`. -/
def sampleBase : Name :=
  ⟨[.generic "icear", .generic "user", .generic "peter", .generic "object_recognizer"]⟩

/-- A consumer with an empty fetch index. -/
def sampleConsumer : AnnotationConsumer :=
  AnnotationConsumer.new sampleBase "yolo"

/-- The name of frame 7 for `sampleConsumer`. -/
def sampleName7 : Name :=
  sampleConsumer.nameOf 7

/-- A completion's meta info announcing a segmented body. -/
def sampleMeta : ContentMetaInfo :=
  ⟨"application/json", true, ""⟩

/-- The parsed record `{"playbackNo": 5, "annotations": []}`: no `"engine"` field. -/
def recordWithoutEngine : CJson :=
  .node .cJSON_Object none none 0
    [.node .cJSON_Number (some "playbackNo") none 5 [],
      .node .cJSON_Array (some "annotations") none 0 []]

/-- The parsed record `{"playbackNo": 5, "engine": 3, "annotations": []}`: the `"engine"`
field is a number, so its `valuestring` is the null pointer. -/
def recordWithNumericEngine : CJson :=
  .node .cJSON_Object none none 0
    [.node .cJSON_Number (some "playbackNo") none 5 [],
      .node .cJSON_Number (some "engine") none 3 [],
      .node .cJSON_Array (some "annotations") none 0 []]

/-- The parsed record `{"playbackNo": "5", "engine": "yolo", "annotations": []}`: the
`"playbackNo"` field is text. -/
def recordWithTextFrameNo : CJson :=
  .node .cJSON_Object none none 0
    [.node .cJSON_String (some "playbackNo") (some "5") 0 [],
      .node .cJSON_String (some "engine") (some "yolo") 0 [],
      .node .cJSON_Array (some "annotations") none 0 []]

/-! ## Lemmas on the map operations -/

section StdMapLemmas

variable {K V : Type} [DecidableEq K]

theorem mapFind_mapAssign_self (m : List (K × V)) (k : K) (v : V) :
    mapFind (mapAssign m k v) k = some v := by
  induction m with
  | nil => simp [mapAssign, mapFind]
  | cons p m ih =>
    obtain ⟨k', v'⟩ := p
    by_cases h : k' = k
    · simp [mapAssign, mapFind, h]
    · simp [mapAssign, mapFind, h, ih]

theorem mapFind_mapAssign_ne (m : List (K × V)) (k k' : K) (v : V) (h : k' ≠ k) :
    mapFind (mapAssign m k v) k' = mapFind m k' := by
  induction m with
  | nil => simp [mapAssign, mapFind, Ne.symm h]
  | cons p m ih =>
    obtain ⟨k0, v0⟩ := p
    by_cases h0 : k0 = k
    · subst h0
      simp [mapAssign, mapFind, Ne.symm h]
    · by_cases h1 : k0 = k'
      · subst h1
        simp [mapAssign, mapFind, h0]
      · simp [mapAssign, mapFind, h0, h1, ih]

theorem mapAssign_mapAssign (m : List (K × V)) (k : K) (v v' : V) :
    mapAssign (mapAssign m k v) k v' = mapAssign m k v' := by
  induction m with
  | nil => simp [mapAssign]
  | cons p m ih =>
    obtain ⟨k0, v0⟩ := p
    by_cases h0 : k0 = k <;> simp [mapAssign, h0, ih]

theorem mapKeys_mapAssign_of_some (m : List (K × V)) (k : K) (v e : V)
    (h : mapFind m k = some e) : mapKeys (mapAssign m k v) = mapKeys m := by
  induction m with
  | nil => simp [mapFind] at h
  | cons p m ih =>
    obtain ⟨k0, v0⟩ := p
    by_cases h0 : k0 = k
    · simp [mapAssign, mapKeys, h0]
    · simp only [mapFind, h0, if_false] at h
      have := ih h
      simp only [mapKeys] at this
      simp [mapAssign, mapKeys, h0, this]

theorem mapKeys_mapAssign_of_none (m : List (K × V)) (k : K) (v : V)
    (h : mapFind m k = none) : mapKeys (mapAssign m k v) = mapKeys m ++ [k] := by
  induction m with
  | nil => simp [mapAssign, mapKeys]
  | cons p m ih =>
    obtain ⟨k0, v0⟩ := p
    by_cases h0 : k0 = k
    · simp [mapFind, h0] at h
    · simp only [mapFind, h0, if_false] at h
      have := ih h
      simp only [mapKeys] at this
      simp [mapAssign, mapKeys, h0, this]

theorem mapFind_mapErase_self (m : List (K × V)) (k : K) :
    mapFind (mapErase m k) k = none := by
  induction m with
  | nil => simp [mapErase, mapFind]
  | cons p m ih =>
    obtain ⟨k0, v0⟩ := p
    by_cases h0 : k0 = k <;> simp [mapErase, mapFind, h0, ih]

theorem mapFind_mapErase_ne (m : List (K × V)) (k k' : K) (h : k' ≠ k) :
    mapFind (mapErase m k) k' = mapFind m k' := by
  induction m with
  | nil => simp [mapErase, mapFind]
  | cons p m ih =>
    obtain ⟨k0, v0⟩ := p
    by_cases h0 : k0 = k
    · subst h0
      simp [mapErase, mapFind, Ne.symm h, ih]
    · by_cases h1 : k0 = k'
      · subst h1
        simp [mapErase, mapFind, h0]
      · simp [mapErase, mapFind, h0, h1, ih]

theorem mapErase_mapAssign (m : List (K × V)) (k : K) (v : V) :
    mapErase (mapAssign m k v) k = mapErase m k := by
  induction m with
  | nil => simp [mapErase, mapAssign]
  | cons p m ih =>
    obtain ⟨k0, v0⟩ := p
    by_cases h0 : k0 = k <;> simp [mapErase, mapAssign, h0, ih]

theorem mapErase_of_none (m : List (K × V)) (k : K) (h : mapFind m k = none) :
    mapErase m k = m := by
  induction m with
  | nil => simp [mapErase]
  | cons p m ih =>
    obtain ⟨k0, v0⟩ := p
    by_cases h0 : k0 = k
    · simp [mapFind, h0] at h
    · simp only [mapFind, h0, if_false] at h
      simp [mapErase, h0, ih h]

end StdMapLemmas

/-! ## The two branches of `fetch` -/

theorem fetch_of_none (c : AnnotationConsumer) (frameNo : Nat) (a : OnAnnotation)
    (f : OnFetchFailure) (h : mapFind c.fetchers_ (c.nameOf frameNo) = none) :
    c.fetch frameNo a f
      = ({ c with fetchers_ := mapAssign c.fetchers_ (c.nameOf frameNo) ⟨a, f, frameNo, 3⟩ },
          [Event.fetchCall (c.nameOf frameNo)]) := by
  simp only [AnnotationConsumer.fetch, h]

theorem fetch_of_some (c : AnnotationConsumer) (frameNo : Nat) (a : OnAnnotation)
    (f : OnFetchFailure) (e : FetcherListEntry)
    (h : mapFind c.fetchers_ (c.nameOf frameNo) = some e) :
    c.fetch frameNo a f
      = ({ c with
            fetchers_ :=
              mapAssign c.fetchers_ (c.nameOf frameNo)
                { e with onAnnotation_ := a, onFetchFailure_ := f } },
          [Event.fetchCall (c.nameOf frameNo)]) := by
  simp only [AnnotationConsumer.fetch, h]

theorem fetch_events (c : AnnotationConsumer) (frameNo : Nat) (a : OnAnnotation)
    (f : OnFetchFailure) : (c.fetch frameNo a f).2 = [Event.fetchCall (c.nameOf frameNo)] :=
  rfl

theorem fetch_nameOf (c : AnnotationConsumer) (frameNo k : Nat) (a : OnAnnotation)
    (f : OnFetchFailure) : (c.fetch frameNo a f).1.nameOf k = c.nameOf k :=
  rfl

theorem fetch_find_isSome (c : AnnotationConsumer) (frameNo : Nat) (a : OnAnnotation)
    (f : OnFetchFailure) :
    ∃ e, mapFind (c.fetch frameNo a f).1.fetchers_ (c.nameOf frameNo) = some e := by
  simp only [AnnotationConsumer.fetch]
  cases mapFind c.fetchers_ (c.nameOf frameNo) <;> simp [mapFind_mapAssign_self]

/-! ## The branches of the handlers -/

theorem onComplete_of_some (c : AnnotationConsumer) (metaInfo : ContentMetaInfo)
    (content : Blob) (n : Name) (e : FetcherListEntry) (h : mapFind c.fetchers_ n = some e) :
    c.onComplete metaInfo content n
      = { consumer := { c with fetchers_ := mapErase c.fetchers_ n }
          events :=
            [Event.onAnnotationCall e.onAnnotation_ e.frameNo_
              (AnnotationArray.ofBlob (if metaInfo.hasSegments then content else metaInfo.other))]
          thrown := none } := by
  cases hs : metaInfo.hasSegments <;> simp [AnnotationConsumer.onComplete, h, hs]

theorem onComplete_of_none (c : AnnotationConsumer) (metaInfo : ContentMetaInfo)
    (content : Blob) (n : Name) (h : mapFind c.fetchers_ n = none) :
    c.onComplete metaInfo content n
      = { consumer := c, events := [], thrown := some "fetcher entry not found" } := by
  simp only [AnnotationConsumer.onComplete, h]

theorem onError_of_none (c : AnnotationConsumer) (code : ErrorCode) (msg : String)
    (n : Name) (h : mapFind c.fetchers_ n = none) :
    c.onError code msg n
      = { consumer := c, events := [], thrown := some "fetcher entry not found" } := by
  simp only [AnnotationConsumer.onError, h]

theorem onError_terminal (c : AnnotationConsumer) (code : ErrorCode) (msg : String)
    (n : Name) (e : FetcherListEntry) (h : mapFind c.fetchers_ n = some e)
    (h0 : e.retriesLeft_ = 0) :
    c.onError code msg n
      = { consumer := { c with fetchers_ := mapErase c.fetchers_ n }
          events := [Event.onFetchFailureCall e.onFetchFailure_ e.frameNo_ code msg]
          thrown := none } := by
  simp [AnnotationConsumer.onError, h, h0]

theorem onError_retry (c : AnnotationConsumer) (code : ErrorCode) (msg : String)
    (n : Name) (e : FetcherListEntry) (h : mapFind c.fetchers_ n = some e)
    (hpos : 0 < e.retriesLeft_) (hn : c.nameOf e.frameNo_ = n) :
    c.onError code msg n
      = { consumer :=
            { c with
              fetchers_ :=
                mapAssign c.fetchers_ n { e with retriesLeft_ := e.retriesLeft_ - 1 } }
          events := [Event.fetchCall n]
          thrown := none } := by
  have hf :=
    fetch_of_some
      { c with
        fetchers_ := mapAssign c.fetchers_ n { e with retriesLeft_ := e.retriesLeft_ - 1 } }
      e.frameNo_ e.onAnnotation_ e.onFetchFailure_
      { e with retriesLeft_ := e.retriesLeft_ - 1 }
      (by
        show mapFind (mapAssign c.fetchers_ n _) (c.nameOf e.frameNo_) = _
        rw [hn]
        exact mapFind_mapAssign_self _ _ _)
  simp only [AnnotationConsumer.onError, h, hpos, gt_iff_lt, if_true, hf]
  have hn' :
      AnnotationConsumer.nameOf
          { c with
            fetchers_ :=
              mapAssign c.fetchers_ n { e with retriesLeft_ := e.retriesLeft_ - 1 } }
          e.frameNo_ = n := hn
  simp [hn', mapAssign_mapAssign]

/-! ## The keying invariant -/

theorem nameOf_injective (c : AnnotationConsumer) (i j : Nat)
    (h : c.nameOf i = c.nameOf j) : i = j := by
  simpa [AnnotationConsumer.nameOf, Name.append, Name.appendSequenceNumber] using h

theorem wellKeyed_new (base : Name) (inst : String) :
    WellKeyed (AnnotationConsumer.new base inst) := by
  intro n e h
  simp [AnnotationConsumer.new, mapFind] at h

theorem wellKeyed_assign (c : AnnotationConsumer) (n : Name) (v : FetcherListEntry)
    (hc : WellKeyed c) (hv : c.nameOf v.frameNo_ = n) :
    WellKeyed { c with fetchers_ := mapAssign c.fetchers_ n v } := by
  intro n' e' h
  by_cases hn : n' = n
  · subst hn
    have h' : mapFind (mapAssign c.fetchers_ n' v) n' = some e' := h
    rw [mapFind_mapAssign_self] at h'
    cases h'
    exact hv
  · have h' : mapFind (mapAssign c.fetchers_ n v) n' = some e' := h
    rw [mapFind_mapAssign_ne _ _ _ _ hn] at h'
    exact hc n' e' h'

theorem wellKeyed_erase (c : AnnotationConsumer) (n : Name) (hc : WellKeyed c) :
    WellKeyed { c with fetchers_ := mapErase c.fetchers_ n } := by
  intro n' e' h
  by_cases hn : n' = n
  · subst hn
    have h' : mapFind (mapErase c.fetchers_ n') n' = some e' := h
    rw [mapFind_mapErase_self] at h'
    cases h'
  · have h' : mapFind (mapErase c.fetchers_ n) n' = some e' := h
    rw [mapFind_mapErase_ne _ _ _ hn] at h'
    exact hc n' e' h'

theorem wellKeyed_fetch (c : AnnotationConsumer) (frameNo : Nat) (a : OnAnnotation)
    (f : OnFetchFailure) (hc : WellKeyed c) : WellKeyed (c.fetch frameNo a f).1 := by
  cases h : mapFind c.fetchers_ (c.nameOf frameNo) with
  | none =>
    rw [fetch_of_none c frameNo a f h]
    exact wellKeyed_assign c _ _ hc rfl
  | some e =>
    rw [fetch_of_some c frameNo a f e h]
    exact wellKeyed_assign c _ _ hc (hc _ e h)

theorem wellKeyed_onComplete (c : AnnotationConsumer) (metaInfo : ContentMetaInfo)
    (content : Blob) (n : Name) (hc : WellKeyed c) :
    WellKeyed (c.onComplete metaInfo content n).consumer := by
  cases h : mapFind c.fetchers_ n with
  | none =>
    rw [onComplete_of_none c metaInfo content n h]
    exact hc
  | some e =>
    rw [onComplete_of_some c metaInfo content n e h]
    exact wellKeyed_erase c n hc

theorem wellKeyed_onError (c : AnnotationConsumer) (code : ErrorCode) (msg : String)
    (n : Name) (hc : WellKeyed c) : WellKeyed (c.onError code msg n).consumer := by
  cases h : mapFind c.fetchers_ n with
  | none =>
    rw [onError_of_none c code msg n h]
    exact hc
  | some e =>
    by_cases h0 : e.retriesLeft_ = 0
    · rw [onError_terminal c code msg n e h h0]
      exact wellKeyed_erase c n hc
    · rw [onError_retry c code msg n e h (Nat.pos_of_ne_zero h0) (hc n e h)]
      exact wellKeyed_assign c _ _ hc (hc n e h)

/-! ## One logical request, followed through its retries -/

theorem run_cons_of_step (w w1 : World) (act : Action) (rest : List Action)
    (ht : w.thrown = none) (hs : w.step act = some w1) :
    World.run w (act :: rest) = World.run w1 rest := by
  simp only [World.run, ht, hs]

theorem run_append (w w1 : World) (as bs : List Action) (h : World.run w as = some w1)
    (ht : w1.thrown = none) : World.run w (as ++ bs) = World.run w1 bs := by
  induction as generalizing w with
  | nil =>
    simp only [World.run, Option.some.injEq] at h
    subst h
    rfl
  | cons act rest ih =>
    cases hw : w.thrown with
    | some t =>
      simp only [World.run, hw, Option.some.injEq] at h
      subst h
      simp [hw] at ht
    | none =>
      cases hs : w.step act with
      | none => simp [World.run, hw, hs] at h
      | some w2 =>
        rw [run_cons_of_step w w2 act rest hw hs] at h
        rw [List.cons_append, run_cons_of_step w w2 act _ hw hs]
        exact ih w2 h

theorem step_fetch_fresh (c : AnnotationConsumer) (p : List Name) (frameNo : Nat)
    (a : OnAnnotation) (f : OnFetchFailure)
    (habsent : mapFind c.fetchers_ (c.nameOf frameNo) = none) :
    World.step ⟨c, p, [], none⟩ (.fetch frameNo a f) = some (retrying c p frameNo a f 0) := by
  simp [World.step, fetch_of_none c frameNo a f habsent, retrying, issued, Event.fetchName]

theorem step_error_retrying (c : AnnotationConsumer) (p : List Name) (frameNo : Nat)
    (a : OnAnnotation) (f : OnFetchFailure) (k : Nat) (code : ErrorCode) (msg : String)
    (hp : c.nameOf frameNo ∉ p) (hk : k < 3) :
    (retrying c p frameNo a f k).step (.error (c.nameOf frameNo) code msg)
      = some (retrying c p frameNo a f (k + 1)) := by
  have he :=
    onError_retry (retrying c p frameNo a f k).consumer code msg (c.nameOf frameNo)
      ⟨a, f, frameNo, 3 - k⟩ (mapFind_mapAssign_self _ _ _) (by simp; omega) rfl
  have hmem : c.nameOf frameNo ∈ (retrying c p frameNo a f k).pending := by
    simp [retrying]
  simp only [World.step, hmem, if_true, he]
  simp [retrying, issued, Event.fetchName, mapAssign_mapAssign, List.erase_append_right _ hp,
    List.replicate_succ' (k + 1)]
  have h3 : 3 - k - 1 = 2 - k := by omega
  rw [h3]

theorem run_errors_retrying (c : AnnotationConsumer) (p : List Name) (frameNo : Nat)
    (a : OnAnnotation) (f : OnFetchFailure) (errs : List (ErrorCode × String))
    (hp : c.nameOf frameNo ∉ p) (k : Nat) (hk : k + errs.length ≤ 3) :
    World.run (retrying c p frameNo a f k) (errorActions (c.nameOf frameNo) errs)
      = some (retrying c p frameNo a f (k + errs.length)) := by
  induction errs generalizing k with
  | nil => simp [errorActions, World.run]
  | cons e rest ih =>
    simp only [List.length_cons] at hk
    have hs := step_error_retrying c p frameNo a f k e.1 e.2 hp (by omega)
    have := ih (k + 1) (by omega)
    simp only [errorActions, List.map_cons] at this ⊢
    rw [run_cons_of_step _ _ _ _ rfl hs, this]
    simp only [List.length_cons]
    congr 2
    omega

theorem callbacks_replicate_fetchCall (k : Nat) (n : Name) :
    callbacks (List.replicate k (Event.fetchCall n)) = [] := by
  induction k with
  | zero => rfl
  | succ k ih =>
    simp only [callbacks] at ih
    simp [callbacks, List.replicate_succ, List.filter_cons, Event.isCallback, ih]

theorem callbacks_append (xs ys : List Event) :
    callbacks (xs ++ ys) = callbacks xs ++ callbacks ys := by
  simp [callbacks]

theorem run_fetch_errors (c : AnnotationConsumer) (p : List Name) (frameNo : Nat)
    (a : OnAnnotation) (f : OnFetchFailure) (errs : List (ErrorCode × String))
    (habsent : mapFind c.fetchers_ (c.nameOf frameNo) = none)
    (hp : c.nameOf frameNo ∉ p) (hlen : errs.length ≤ 3) :
    World.run ⟨c, p, [], none⟩ (.fetch frameNo a f :: errorActions (c.nameOf frameNo) errs)
      = some (retrying c p frameNo a f errs.length) := by
  rw [run_cons_of_step _ _ _ _ rfl (step_fetch_fresh c p frameNo a f habsent),
    run_errors_retrying c p frameNo a f errs hp 0 (by omega), Nat.zero_add]

theorem step_complete_retrying (c : AnnotationConsumer) (p : List Name) (frameNo : Nat)
    (a : OnAnnotation) (f : OnFetchFailure) (k : Nat) (metaInfo : ContentMetaInfo)
    (content : Blob) (habsent : mapFind c.fetchers_ (c.nameOf frameNo) = none)
    (hp : c.nameOf frameNo ∉ p) :
    (retrying c p frameNo a f k).step (.complete (c.nameOf frameNo) metaInfo content)
      = some
          { consumer := c
            pending := p
            trace :=
              List.replicate (k + 1) (Event.fetchCall (c.nameOf frameNo)) ++
                [Event.onAnnotationCall a frameNo
                  (AnnotationArray.ofBlob
                    (if metaInfo.hasSegments then content else metaInfo.other))]
            thrown := none } := by
  have he :=
    onComplete_of_some (retrying c p frameNo a f k).consumer metaInfo content
      (c.nameOf frameNo) ⟨a, f, frameNo, 3 - k⟩ (mapFind_mapAssign_self _ _ _)
  have hmem : c.nameOf frameNo ∈ (retrying c p frameNo a f k).pending := by
    simp [retrying]
  simp only [World.step, hmem, if_true, he]
  simp [retrying, issued, Event.fetchName, mapErase_mapAssign, mapErase_of_none _ _ habsent,
    List.erase_append_right _ hp]

theorem step_error_exhausted (c : AnnotationConsumer) (p : List Name) (frameNo : Nat)
    (a : OnAnnotation) (f : OnFetchFailure) (code : ErrorCode) (msg : String)
    (habsent : mapFind c.fetchers_ (c.nameOf frameNo) = none)
    (hp : c.nameOf frameNo ∉ p) :
    (retrying c p frameNo a f 3).step (.error (c.nameOf frameNo) code msg)
      = some
          { consumer := c
            pending := p
            trace :=
              List.replicate 4 (Event.fetchCall (c.nameOf frameNo)) ++
                [Event.onFetchFailureCall f frameNo code msg]
            thrown := none } := by
  have he :=
    onError_terminal (retrying c p frameNo a f 3).consumer code msg (c.nameOf frameNo)
      ⟨a, f, frameNo, 0⟩ (mapFind_mapAssign_self _ _ _) rfl
  have hmem : c.nameOf frameNo ∈ (retrying c p frameNo a f 3).pending := by
    simp [retrying]
  simp only [World.step, hmem, if_true, he]
  simp [retrying, issued, Event.fetchName, mapErase_mapAssign, mapErase_of_none _ _ habsent,
    List.erase_append_right _ hp]

/-! ## At most one network fetch per name? (C1) -/

/-- C1, as stated, fails: on an empty index two caller fetches for frame 7 with nothing
handled in between issue two network fetches, and the second call, which finds the entry
made by the first, issues one of them. -/
theorem fetch_twice_not_single_network_fetch :
    mapFind (sampleConsumer.fetch 7 ⟨1⟩ ⟨2⟩).1.fetchers_ sampleName7
        = some ⟨⟨1⟩, ⟨2⟩, 7, 3⟩ ∧
      fetchCount ((sampleConsumer.fetch 7 ⟨1⟩ ⟨2⟩).2 ++
        ((sampleConsumer.fetch 7 ⟨1⟩ ⟨2⟩).1.fetch 7 ⟨3⟩ ⟨4⟩).2) = 2 ∧
      ((sampleConsumer.fetch 7 ⟨1⟩ ⟨2⟩).1.fetch 7 ⟨3⟩ ⟨4⟩).2
        = [Event.fetchCall sampleName7] := by
  decide

/-- C1, amended: every call of `fetch` issues exactly one network fetch for the name of
its frame, so two calls for the same frame with nothing handled in between issue two in
total; the second call finds the entry, replaces its callbacks only and adds no key. -/
theorem fetch_twice_issues_two_network_fetches (c : AnnotationConsumer) (frameNo : Nat)
    (a1 a2 : OnAnnotation) (f1 f2 : OnFetchFailure) :
    (c.fetch frameNo a1 f1).2 = [Event.fetchCall (c.nameOf frameNo)] ∧
      ((c.fetch frameNo a1 f1).1.fetch frameNo a2 f2).2
        = [Event.fetchCall (c.nameOf frameNo)] ∧
      fetchCount ((c.fetch frameNo a1 f1).2 ++
        ((c.fetch frameNo a1 f1).1.fetch frameNo a2 f2).2) = 2 ∧
      mapKeys ((c.fetch frameNo a1 f1).1.fetch frameNo a2 f2).1.fetchers_
        = mapKeys (c.fetch frameNo a1 f1).1.fetchers_ ∧
      ∃ e, mapFind (c.fetch frameNo a1 f1).1.fetchers_ (c.nameOf frameNo) = some e ∧
        mapFind ((c.fetch frameNo a1 f1).1.fetch frameNo a2 f2).1.fetchers_
            (c.nameOf frameNo)
          = some { e with onAnnotation_ := a2, onFetchFailure_ := f2 } := by
  obtain ⟨e, he⟩ := fetch_find_isSome c frameNo a1 f1
  have h2 := fetch_of_some (c.fetch frameNo a1 f1).1 frameNo a2 f2 e he
  rw [fetch_nameOf] at h2
  refine ⟨rfl, rfl, rfl, ?_, e, he, ?_⟩
  · rw [h2]
    exact mapKeys_mapAssign_of_some _ _ _ e he
  · rw [h2]
    exact mapFind_mapAssign_self _ _ _

/-! ## The retry budget (C2) -/

/-- C2, as stated, fails: after one caller fetch for frame 7 and three errors there have
been four network fetches, no callback has been invoked, the entry is still in the index
(with no retry left) and the fourth network fetch is outstanding. -/
theorem three_errors_not_terminal :
    World.run (World.init sampleBase "yolo")
        [.fetch 7 ⟨1⟩ ⟨2⟩, .error sampleName7 1 "timeout", .error sampleName7 1 "timeout",
          .error sampleName7 1 "timeout"]
      = some
          { consumer :=
              { basePrefix_ := sampleBase, instance_ := "yolo"
                fetchers_ := [(sampleName7, ⟨⟨1⟩, ⟨2⟩, 7, 0⟩)] }
            pending := [sampleName7]
            trace :=
              [.fetchCall sampleName7, .fetchCall sampleName7, .fetchCall sampleName7,
                .fetchCall sampleName7]
            thrown := none } := by
  decide

/-- C2, amended: from an empty index, one caller fetch whose network fetches are all
answered with an error issues exactly four network fetches (1 initial + 3 retries);
`onFetchFailure_` is invoked, once, when the fourth error is handled, with the frame
number and that error; the entry is removed then and no network fetch is left
outstanding, so no fifth attempt or fifth error exists. After three errors no callback
has been invoked yet. -/
theorem retry_budget_four_network_fetches (base : Name) (inst : String) (frameNo : Nat)
    (a : OnAnnotation) (f : OnFetchFailure) (c1 c2 c3 c4 : ErrorCode)
    (m1 m2 m3 m4 : String) :
    World.run (World.init base inst)
        [.fetch frameNo a f,
          .error ((AnnotationConsumer.new base inst).nameOf frameNo) c1 m1,
          .error ((AnnotationConsumer.new base inst).nameOf frameNo) c2 m2,
          .error ((AnnotationConsumer.new base inst).nameOf frameNo) c3 m3]
      = some
          { consumer :=
              { basePrefix_ := base, instance_ := inst
                fetchers_ :=
                  [((AnnotationConsumer.new base inst).nameOf frameNo, ⟨a, f, frameNo, 0⟩)] }
            pending := [(AnnotationConsumer.new base inst).nameOf frameNo]
            trace :=
              List.replicate 4
                (Event.fetchCall ((AnnotationConsumer.new base inst).nameOf frameNo))
            thrown := none } ∧
      World.run (World.init base inst)
        [.fetch frameNo a f,
          .error ((AnnotationConsumer.new base inst).nameOf frameNo) c1 m1,
          .error ((AnnotationConsumer.new base inst).nameOf frameNo) c2 m2,
          .error ((AnnotationConsumer.new base inst).nameOf frameNo) c3 m3,
          .error ((AnnotationConsumer.new base inst).nameOf frameNo) c4 m4]
      = some
          { consumer := AnnotationConsumer.new base inst
            pending := []
            trace :=
              List.replicate 4
                  (Event.fetchCall ((AnnotationConsumer.new base inst).nameOf frameNo)) ++
                [Event.onFetchFailureCall f frameNo c4 m4]
            thrown := none } := by
  constructor <;>
    simp [World.run, World.step, World.init, AnnotationConsumer.fetch,
      AnnotationConsumer.onError, AnnotationConsumer.new, AnnotationConsumer.nameOf,
      mapFind, mapAssign, mapErase, issued, Event.fetchName, List.replicate]

/-! ## Exactly one terminal callback (C3) -/

/-- C3: one caller fetch for a frame whose name is not in the index, followed by at most
three error responses to the outstanding network fetch, invokes no callback and keeps the
entry (with `3 - errs.length` retries left); ending the sequence by a completion invokes
`onAnnotation_` once, with the frame number, and nothing else; after three retried errors
the error that finds `retriesLeft_ == 0` invokes `onFetchFailure_` once, with the frame
number, and nothing else; after either terminal response the name is absent from the
index. -/
theorem exactly_once_terminal_callback (c : AnnotationConsumer) (p : List Name)
    (frameNo : Nat) (a : OnAnnotation) (f : OnFetchFailure)
    (errs : List (ErrorCode × String)) (metaInfo : ContentMetaInfo) (content : Blob)
    (code : ErrorCode) (msg : String)
    (habsent : mapFind c.fetchers_ (c.nameOf frameNo) = none)
    (hp : c.nameOf frameNo ∉ p) (hlen : errs.length ≤ 3) :
    (∃ w,
        World.run ⟨c, p, [], none⟩
            (.fetch frameNo a f :: errorActions (c.nameOf frameNo) errs) = some w ∧
          w.thrown = none ∧ callbacks w.trace = [] ∧
          mapFind w.consumer.fetchers_ (c.nameOf frameNo)
            = some ⟨a, f, frameNo, 3 - errs.length⟩) ∧
      (∃ w,
        World.run ⟨c, p, [], none⟩
            (.fetch frameNo a f ::
              (errorActions (c.nameOf frameNo) errs ++
                [.complete (c.nameOf frameNo) metaInfo content])) = some w ∧
          w.thrown = none ∧
          callbacks w.trace
            = [Event.onAnnotationCall a frameNo
                (AnnotationArray.ofBlob
                  (if metaInfo.hasSegments then content else metaInfo.other))] ∧
          mapFind w.consumer.fetchers_ (c.nameOf frameNo) = none) ∧
      (errs.length = 3 →
        ∃ w,
          World.run ⟨c, p, [], none⟩
              (.fetch frameNo a f ::
                (errorActions (c.nameOf frameNo) errs ++
                  [.error (c.nameOf frameNo) code msg])) = some w ∧
            w.thrown = none ∧
            callbacks w.trace = [Event.onFetchFailureCall f frameNo code msg] ∧
            mapFind w.consumer.fetchers_ (c.nameOf frameNo) = none) := by
  have hrun := run_fetch_errors c p frameNo a f errs habsent hp hlen
  have hcomplete :
      World.run ⟨c, p, [], none⟩
          (.fetch frameNo a f ::
            (errorActions (c.nameOf frameNo) errs ++
              [.complete (c.nameOf frameNo) metaInfo content]))
        = some
            { consumer := c
              pending := p
              trace :=
                List.replicate (errs.length + 1) (Event.fetchCall (c.nameOf frameNo)) ++
                  [Event.onAnnotationCall a frameNo
                    (AnnotationArray.ofBlob
                      (if metaInfo.hasSegments then content else metaInfo.other))]
              thrown := none } := by
    rw [← List.cons_append, run_append _ _ _ _ hrun rfl,
      run_cons_of_step _ _ _ _ rfl
        (step_complete_retrying c p frameNo a f errs.length metaInfo content habsent hp)]
    rfl
  refine ⟨⟨_, hrun, rfl, ?_, ?_⟩, ⟨_, hcomplete, rfl, ?_, habsent⟩, ?_⟩
  · exact callbacks_replicate_fetchCall _ _
  · exact mapFind_mapAssign_self _ _ _
  · show callbacks (_ ++ _) = _
    rw [callbacks_append, callbacks_replicate_fetchCall]
    rfl
  · intro h3
    rw [h3] at hrun
    have herror :
        World.run ⟨c, p, [], none⟩
            (.fetch frameNo a f ::
              (errorActions (c.nameOf frameNo) errs ++
                [.error (c.nameOf frameNo) code msg]))
          = some
              { consumer := c
                pending := p
                trace :=
                  List.replicate 4 (Event.fetchCall (c.nameOf frameNo)) ++
                    [Event.onFetchFailureCall f frameNo code msg]
                thrown := none } := by
      rw [← List.cons_append, run_append _ _ _ _ hrun rfl,
        run_cons_of_step _ _ _ _ rfl
          (step_error_exhausted c p frameNo a f code msg habsent hp)]
      rfl
    refine ⟨_, herror, rfl, ?_, habsent⟩
    show callbacks (_ ++ _) = _
    rw [callbacks_append, callbacks_replicate_fetchCall]
    rfl

/-- C3 at a concrete input: frame 7 on the empty index, three retried errors, then the
terminal error. -/
theorem exactly_once_terminal_callback_witness :
    mapFind sampleConsumer.fetchers_ (sampleConsumer.nameOf 7) = none ∧
      sampleConsumer.nameOf 7 ∉ ([] : List Name) ∧
      [((1 : ErrorCode), "timeout"), (1, "timeout"), (1, "timeout")].length ≤ 3 ∧
      ∃ w,
        World.run ⟨sampleConsumer, [], [], none⟩
            (.fetch 7 ⟨1⟩ ⟨2⟩ ::
              (errorActions (sampleConsumer.nameOf 7)
                  [(1, "timeout"), (1, "timeout"), (1, "timeout")] ++
                [.error (sampleConsumer.nameOf 7) 1 "timeout"])) = some w ∧
          w.thrown = none ∧
          callbacks w.trace = [Event.onFetchFailureCall ⟨2⟩ 7 1 "timeout"] ∧
          mapFind w.consumer.fetchers_ (sampleConsumer.nameOf 7) = none :=
  ⟨by decide, by decide, by decide,
    (exactly_once_terminal_callback sampleConsumer [] 7 ⟨1⟩ ⟨2⟩
      [(1, "timeout"), (1, "timeout"), (1, "timeout")] sampleMeta "[]" 1 "timeout"
      (by decide) (by decide) (by decide)).2.2 rfl⟩

/-! ## Coalescing delivers to the latest caller (C4) -/

/-- C4: in a consumer whose entries are stored under the names of their frame numbers,
after `fetch(id, cbA, fA)` and then `fetch(id, cbB, fB)` the two calls have invoked no
callback, and handling a completion for the name of `id` does not throw and invokes
exactly one callback: `cbB` with `(id, payload)`; so neither `cbA` nor `fA` is invoked. -/
theorem coalescing_delivers_to_latest (c : AnnotationConsumer) (id : Nat)
    (cbA cbB : OnAnnotation) (fA fB : OnFetchFailure) (metaInfo : ContentMetaInfo)
    (content : Blob) (hc : WellKeyed c) :
    callbacks ((c.fetch id cbA fA).2 ++ ((c.fetch id cbA fA).1.fetch id cbB fB).2) = [] ∧
      (((c.fetch id cbA fA).1.fetch id cbB fB).1.onComplete metaInfo content
          (c.nameOf id)).events
        = [Event.onAnnotationCall cbB id
            (AnnotationArray.ofBlob
              (if metaInfo.hasSegments then content else metaInfo.other))] ∧
      (((c.fetch id cbA fA).1.fetch id cbB fB).1.onComplete metaInfo content
          (c.nameOf id)).thrown = none := by
  obtain ⟨e, he⟩ := fetch_find_isSome c id cbA fA
  have hid : e.frameNo_ = id :=
    nameOf_injective c _ _ (wellKeyed_fetch c id cbA fA hc _ e he)
  have h2 := fetch_of_some (c.fetch id cbA fA).1 id cbB fB e he
  rw [fetch_nameOf] at h2
  have hfind :
      mapFind ((c.fetch id cbA fA).1.fetch id cbB fB).1.fetchers_ (c.nameOf id)
        = some { e with onAnnotation_ := cbB, onFetchFailure_ := fB } := by
    rw [h2]
    exact mapFind_mapAssign_self _ _ _
  rw [onComplete_of_some _ metaInfo content _ _ hfind]
  exact ⟨rfl, by simp [hid], rfl⟩

/-- C4 at a concrete input: frame 7 on the empty index, callbacks 1/2 then 3/4. -/
theorem coalescing_delivers_to_latest_witness :
    WellKeyed sampleConsumer ∧
      (((sampleConsumer.fetch 7 ⟨1⟩ ⟨2⟩).1.fetch 7 ⟨3⟩ ⟨4⟩).1.onComplete sampleMeta "[]"
          (sampleConsumer.nameOf 7)).events
        = [Event.onAnnotationCall ⟨3⟩ 7 (AnnotationArray.ofBlob "[]")] :=
  ⟨wellKeyed_new sampleBase "yolo",
    (coalescing_delivers_to_latest sampleConsumer 7 ⟨1⟩ ⟨3⟩ ⟨2⟩ ⟨4⟩ sampleMeta "[]"
      (wellKeyed_new sampleBase "yolo")).2.1⟩

/-! ## Round trip with a fresh budget (C5) -/

/-- C5: on an empty index `fetch(42, s, f)` followed by a completion with payload `P`
invokes `s(42, P)` once, never `f`, and leaves the index empty; in any state, once the
request for a frame has terminated (its completion handled, or its error handled with no
retry left), however many retries its entry `e` had left, a following
`fetch(frameNo, s2, f2)` issues one network fetch and stores the entry
`(s2, f2, frameNo, 3)`. -/
theorem round_trip_fresh_budget (base : Name) (inst : String) (s s2 : OnAnnotation)
    (f f2 : OnFetchFailure) (metaInfo : ContentMetaInfo) (content : Blob)
    (c : AnnotationConsumer) (frameNo : Nat) (e : FetcherListEntry) (code : ErrorCode)
    (msg : String) (h : mapFind c.fetchers_ (c.nameOf frameNo) = some e) :
    World.run (World.init base inst)
        [.fetch 42 s f, .complete ((AnnotationConsumer.new base inst).nameOf 42) metaInfo content]
      = some
          { consumer := AnnotationConsumer.new base inst
            pending := []
            trace :=
              [Event.fetchCall ((AnnotationConsumer.new base inst).nameOf 42),
                Event.onAnnotationCall s 42
                  (AnnotationArray.ofBlob
                    (if metaInfo.hasSegments then content else metaInfo.other))]
            thrown := none } ∧
      (AnnotationConsumer.new base inst).fetch 42 s2 f2
        = ({ basePrefix_ := base, instance_ := inst
             fetchers_ := [((AnnotationConsumer.new base inst).nameOf 42, ⟨s2, f2, 42, 3⟩)] },
            [Event.fetchCall ((AnnotationConsumer.new base inst).nameOf 42)]) ∧
      ((c.onComplete metaInfo content (c.nameOf frameNo)).thrown = none ∧
        mapFind (c.onComplete metaInfo content (c.nameOf frameNo)).consumer.fetchers_
            (c.nameOf frameNo) = none ∧
        ((c.onComplete metaInfo content (c.nameOf frameNo)).consumer.fetch frameNo s2 f2).2
          = [Event.fetchCall (c.nameOf frameNo)] ∧
        mapFind
            ((c.onComplete metaInfo content (c.nameOf frameNo)).consumer.fetch frameNo s2
              f2).1.fetchers_ (c.nameOf frameNo)
          = some ⟨s2, f2, frameNo, 3⟩) ∧
      (e.retriesLeft_ = 0 →
        (c.onError code msg (c.nameOf frameNo)).thrown = none ∧
          mapFind (c.onError code msg (c.nameOf frameNo)).consumer.fetchers_
              (c.nameOf frameNo) = none ∧
          ((c.onError code msg (c.nameOf frameNo)).consumer.fetch frameNo s2 f2).2
            = [Event.fetchCall (c.nameOf frameNo)] ∧
          mapFind
              ((c.onError code msg (c.nameOf frameNo)).consumer.fetch frameNo s2
                f2).1.fetchers_ (c.nameOf frameNo)
            = some ⟨s2, f2, frameNo, 3⟩) := by
  have fresh : ∀ c' : AnnotationConsumer, c'.nameOf frameNo = c.nameOf frameNo →
      mapFind c'.fetchers_ (c.nameOf frameNo) = none →
      (c'.fetch frameNo s2 f2).2 = [Event.fetchCall (c.nameOf frameNo)] ∧
        mapFind (c'.fetch frameNo s2 f2).1.fetchers_ (c.nameOf frameNo)
          = some ⟨s2, f2, frameNo, 3⟩ := by
    intro c' hn hnone
    rw [← hn] at hnone ⊢
    rw [fetch_of_none c' frameNo s2 f2 hnone]
    exact ⟨rfl, mapFind_mapAssign_self _ _ _⟩
  refine ⟨?_, ?_, ?_, ?_⟩
  · cases hs : metaInfo.hasSegments <;>
      simp [World.run, World.step, World.init, AnnotationConsumer.fetch,
        AnnotationConsumer.onComplete, AnnotationConsumer.new, AnnotationConsumer.nameOf,
        mapFind, mapAssign, mapErase, issued, Event.fetchName, hs]
  · simp [AnnotationConsumer.fetch, AnnotationConsumer.new, mapFind, mapAssign]
  · rw [onComplete_of_some c metaInfo content _ e h]
    exact ⟨rfl, mapFind_mapErase_self _ _, fresh _ rfl (mapFind_mapErase_self _ _)⟩
  · intro h0
    rw [onError_terminal c code msg _ e h h0]
    exact ⟨rfl, mapFind_mapErase_self _ _, fresh _ rfl (mapFind_mapErase_self _ _)⟩

/-- C5 at a concrete input: the entry of frame 7 has no retry left when its last error
is handled; the next fetch for frame 7 starts with 3. -/
theorem round_trip_fresh_budget_witness :
    mapFind
          ({ basePrefix_ := sampleBase, instance_ := "yolo"
             fetchers_ := [(sampleName7, ⟨⟨1⟩, ⟨2⟩, 7, 0⟩)] } : AnnotationConsumer).fetchers_
          sampleName7
        = some ⟨⟨1⟩, ⟨2⟩, 7, 0⟩ ∧
      mapFind
          ((({ basePrefix_ := sampleBase, instance_ := "yolo"
               fetchers_ := [(sampleName7, ⟨⟨1⟩, ⟨2⟩, 7, 0⟩)] } : AnnotationConsumer).onError
              1 "timeout" sampleName7).consumer.fetch 7 ⟨3⟩ ⟨4⟩).1.fetchers_ sampleName7
        = some ⟨⟨3⟩, ⟨4⟩, 7, 3⟩ :=
  ⟨by decide,
    ((round_trip_fresh_budget sampleBase "yolo" ⟨1⟩ ⟨3⟩ ⟨2⟩ ⟨4⟩ sampleMeta "[]"
        { basePrefix_ := sampleBase, instance_ := "yolo"
          fetchers_ := [(sampleName7, ⟨⟨1⟩, ⟨2⟩, 7, 0⟩)] }
        7 ⟨⟨1⟩, ⟨2⟩, 7, 0⟩ 1 "timeout" (by decide)).2.2.2 rfl).2.2.2⟩

/-! ## A duplicate fetch changes the callbacks only (C8) -/

/-- C8: when the index holds an entry `e` under the name of `frameNo`,
`fetch(frameNo, cb1, cb2)` leaves under that name the entry `e` with its callbacks
replaced by `cb1` / `cb2` (same `frameNo_`, same `retriesLeft_`: the budget is not
restored to 3), keeps the key list (so no entry is added and keys stay distinct), and
leaves the entry of every other name as it was. -/
theorem duplicate_fetch_updates_callbacks_only (c : AnnotationConsumer) (frameNo : Nat)
    (cb1 : OnAnnotation) (cb2 : OnFetchFailure) (e : FetcherListEntry)
    (h : mapFind c.fetchers_ (c.nameOf frameNo) = some e) :
    mapFind (c.fetch frameNo cb1 cb2).1.fetchers_ (c.nameOf frameNo)
        = some ⟨cb1, cb2, e.frameNo_, e.retriesLeft_⟩ ∧
      mapKeys (c.fetch frameNo cb1 cb2).1.fetchers_ = mapKeys c.fetchers_ ∧
      ((mapKeys c.fetchers_).Nodup → (mapKeys (c.fetch frameNo cb1 cb2).1.fetchers_).Nodup) ∧
      (∀ n, n ≠ c.nameOf frameNo →
        mapFind (c.fetch frameNo cb1 cb2).1.fetchers_ n = mapFind c.fetchers_ n) ∧
      (c.fetch frameNo cb1 cb2).1.basePrefix_ = c.basePrefix_ ∧
      (c.fetch frameNo cb1 cb2).1.instance_ = c.instance_ := by
  rw [fetch_of_some c frameNo cb1 cb2 e h]
  have hk := mapKeys_mapAssign_of_some c.fetchers_ (c.nameOf frameNo)
    { e with onAnnotation_ := cb1, onFetchFailure_ := cb2 } e h
  refine ⟨mapFind_mapAssign_self _ _ _, hk, ?_, ?_, rfl, rfl⟩
  · intro hnd
    show (mapKeys (mapAssign c.fetchers_ _ _)).Nodup
    rw [hk]
    exact hnd
  · intro n hn
    exact mapFind_mapAssign_ne _ _ _ _ hn

/-- C8 at a concrete input: the entry of frame 7 has one retry left; a duplicate fetch
replaces the callbacks, the entry still has one retry left and the keys stay distinct. -/
theorem duplicate_fetch_updates_callbacks_only_witness :
    mapFind
          ({ basePrefix_ := sampleBase, instance_ := "yolo"
             fetchers_ := [(sampleName7, ⟨⟨1⟩, ⟨2⟩, 7, 1⟩)] } : AnnotationConsumer).fetchers_
          sampleName7
        = some ⟨⟨1⟩, ⟨2⟩, 7, 1⟩ ∧
      mapFind
          (({ basePrefix_ := sampleBase, instance_ := "yolo"
              fetchers_ := [(sampleName7, ⟨⟨1⟩, ⟨2⟩, 7, 1⟩)] } : AnnotationConsumer).fetch
            7 ⟨3⟩ ⟨4⟩).1.fetchers_ sampleName7
        = some ⟨⟨3⟩, ⟨4⟩, 7, 1⟩ ∧
      (mapKeys
          (({ basePrefix_ := sampleBase, instance_ := "yolo"
              fetchers_ := [(sampleName7, ⟨⟨1⟩, ⟨2⟩, 7, 1⟩)] } : AnnotationConsumer).fetch
            7 ⟨3⟩ ⟨4⟩).1.fetchers_).Nodup :=
  ⟨by decide,
    (duplicate_fetch_updates_callbacks_only
      { basePrefix_ := sampleBase, instance_ := "yolo"
        fetchers_ := [(sampleName7, ⟨⟨1⟩, ⟨2⟩, 7, 1⟩)] }
      7 ⟨3⟩ ⟨4⟩ ⟨⟨1⟩, ⟨2⟩, 7, 1⟩ (by decide)).1,
    (duplicate_fetch_updates_callbacks_only
      { basePrefix_ := sampleBase, instance_ := "yolo"
        fetchers_ := [(sampleName7, ⟨⟨1⟩, ⟨2⟩, 7, 1⟩)] }
      7 ⟨3⟩ ⟨4⟩ ⟨⟨1⟩, ⟨2⟩, 7, 1⟩ (by decide)).2.2.1 (by decide)⟩

/-! ## Untracked names are fatal (C9) -/

/-- C9: `onComplete` and `onError` throw `"fetcher entry not found"` exactly when the
index holds no entry for the name (and throw nothing else), and when they throw they have
invoked no callback, issued no network fetch and left the consumer as it was. -/
theorem untracked_name_is_fatal (c : AnnotationConsumer) (n : Name)
    (metaInfo : ContentMetaInfo) (content : Blob) (code : ErrorCode) (msg : String) :
    ((c.onComplete metaInfo content n).thrown = some "fetcher entry not found" ↔
        mapFind c.fetchers_ n = none) ∧
      ((c.onError code msg n).thrown = some "fetcher entry not found" ↔
        mapFind c.fetchers_ n = none) ∧
      ((c.onComplete metaInfo content n).thrown ≠ none →
        (c.onComplete metaInfo content n).events = [] ∧
          (c.onComplete metaInfo content n).consumer = c) ∧
      ((c.onError code msg n).thrown ≠ none →
        (c.onError code msg n).events = [] ∧ (c.onError code msg n).consumer = c) ∧
      (mapFind c.fetchers_ n ≠ none →
        (c.onComplete metaInfo content n).thrown = none ∧
          (c.onError code msg n).thrown = none) := by
  cases h : mapFind c.fetchers_ n with
  | none =>
    rw [onComplete_of_none c metaInfo content n h, onError_of_none c code msg n h]
    simp
  | some e =>
    rw [onComplete_of_some c metaInfo content n e h]
    by_cases h0 : e.retriesLeft_ = 0
    · rw [onError_terminal c code msg n e h h0]
      simp
    · simp [AnnotationConsumer.onError, h, Nat.pos_of_ne_zero h0]

/-- C9 at concrete inputs: a completion and an error for the name of frame 7 on the empty
index throw and change nothing; with the entry present neither handler throws. -/
theorem untracked_name_is_fatal_witness :
    (sampleConsumer.onComplete sampleMeta "[]" sampleName7).thrown ≠ none ∧
      ((sampleConsumer.onComplete sampleMeta "[]" sampleName7).events = [] ∧
        (sampleConsumer.onComplete sampleMeta "[]" sampleName7).consumer = sampleConsumer) ∧
      (sampleConsumer.onError 1 "timeout" sampleName7).thrown ≠ none ∧
      ((sampleConsumer.onError 1 "timeout" sampleName7).events = [] ∧
        (sampleConsumer.onError 1 "timeout" sampleName7).consumer = sampleConsumer) ∧
      mapFind (sampleConsumer.fetch 7 ⟨1⟩ ⟨2⟩).1.fetchers_ sampleName7 ≠ none ∧
      ((sampleConsumer.fetch 7 ⟨1⟩ ⟨2⟩).1.onComplete sampleMeta "[]" sampleName7).thrown
        = none ∧
      ((sampleConsumer.fetch 7 ⟨1⟩ ⟨2⟩).1.onError 1 "timeout" sampleName7).thrown = none :=
  ⟨by decide,
    (untracked_name_is_fatal sampleConsumer sampleName7 sampleMeta "[]" 1 "timeout").2.2.1
      (by decide),
    by decide,
    (untracked_name_is_fatal sampleConsumer sampleName7 sampleMeta "[]" 1 "timeout").2.2.2.1
      (by decide),
    by decide,
    (untracked_name_is_fatal (sampleConsumer.fetch 7 ⟨1⟩ ⟨2⟩).1 sampleName7 sampleMeta "[]" 1
      "timeout").2.2.2.2 (by decide)⟩

/-! ## Is the fatal path unreachable? (C10) -/

/-- C10 fails on the code: two caller fetches for frame 7 issue two network fetches; the
network answers each of them once, with a completion; the first completion removes the
entry and the second one finds none and throws. -/
theorem duplicate_fetch_reaches_fatal_path :
    World.run (World.init sampleBase "yolo")
        [.fetch 7 ⟨1⟩ ⟨2⟩, .fetch 7 ⟨3⟩ ⟨4⟩, .complete sampleName7 sampleMeta "[]",
          .complete sampleName7 sampleMeta "[]"]
      = some
          { consumer := sampleConsumer
            pending := []
            trace :=
              [.fetchCall sampleName7, .fetchCall sampleName7,
                .onAnnotationCall ⟨3⟩ 7 (AnnotationArray.ofBlob "[]")]
            thrown := some "fetcher entry not found" } := by
  decide

/-! ## The channel registry -/

theorem mapFind_eq_none_iff {K V : Type} [DecidableEq K] (m : List (K × V)) (k : K) :
    mapFind m k = none ↔ k ∉ mapKeys m := by
  induction m with
  | nil => simp [mapFind, mapKeys]
  | cons q m ih =>
    obtain ⟨k0, v0⟩ := q
    simp only [mapKeys] at ih
    by_cases h0 : k0 = k
    · simp [mapFind, mapKeys, h0]
    · simp [mapFind, mapKeys, h0, ih, Ne.symm h0]

theorem publish_of_some (p : AnnotationPublisher) (frameNo : Nat) (a : AnnotationArray)
    (engine : String) (h : Nat) (hf : mapFind p.handlers_ engine = some h) :
    p.publish frameNo a engine
      = (p, [PubEvent.setObject h frameNo a.get "application/json"]) := by
  simp [AnnotationPublisher.publish, AnnotationPublisher.getHandlerForEngine, hf]

theorem publish_of_none (p : AnnotationPublisher) (frameNo : Nat) (a : AnnotationArray)
    (engine : String) (hf : mapFind p.handlers_ engine = none) :
    p.publish frameNo a engine
      = ({ p with
            namespaces_ :=
              mapAssign p.namespaces_ engine
                ⟨p.baseName_.append engine, some p.allocated_, true⟩
            handlers_ := mapAssign p.handlers_ engine p.allocated_
            allocated_ := p.allocated_ + 1 },
          [.namespaceNew (p.baseName_.append engine), .handlerNew p.allocated_,
            .setHandler (p.baseName_.append engine) p.allocated_,
            .setFace (p.baseName_.append engine),
            .setObject p.allocated_ frameNo a.get "application/json"]) := by
  simp [AnnotationPublisher.publish, AnnotationPublisher.getHandlerForEngine, hf,
    mapFind_mapAssign_self]

theorem publishAll_cons (p : AnnotationPublisher) (call : PublishCall)
    (rest : List PublishCall) :
    p.publishAll (call :: rest)
      = (((p.publish call.frameNo call.a call.engine).1.publishAll rest).1,
          (p.publish call.frameNo call.a call.engine).2 ++
            ((p.publish call.frameNo call.a call.engine).1.publishAll rest).2) :=
  rfl

theorem publishAll_append (p : AnnotationPublisher) (xs ys : List PublishCall) :
    p.publishAll (xs ++ ys)
      = (((p.publishAll xs).1.publishAll ys).1,
          (p.publishAll xs).2 ++ ((p.publishAll xs).1.publishAll ys).2) := by
  induction xs generalizing p with
  | nil => simp [AnnotationPublisher.publishAll]
  | cons call rest ih =>
    simp only [List.cons_append, publishAll_cons, ih, List.append_assoc]

theorem card_insert_sdiff_of_not_mem {α : Type} [DecidableEq α] (S K : Finset α) (e : α)
    (h : e ∉ K) : (insert e S \ K).card = (S \ insert e K).card + 1 := by
  have hs : insert e S \ K = insert e (S \ insert e K) := by
    ext x
    simp only [Finset.mem_sdiff, Finset.mem_insert]
    constructor
    · rintro ⟨hx | hx, hk⟩
      · exact Or.inl hx
      · by_cases hxe : x = e
        · exact Or.inl hxe
        · exact Or.inr ⟨hx, fun hc => hc.elim hxe hk⟩
    · rintro (hx | ⟨hx, hk⟩)
      · subst hx
        exact ⟨Or.inl rfl, h⟩
      · exact ⟨Or.inr hx, fun hc => hk (Or.inr hc)⟩
  rw [hs, Finset.card_insert_of_not_mem]
  simp

/-- The number of channel creations, in each of its three observable forms. -/
theorem creations_count (p : AnnotationPublisher) (calls : List PublishCall) :
    (p.publishAll calls).2.countP PubEvent.isSetFace
        = ((calls.map PublishCall.engine).toFinset \ (mapKeys p.handlers_).toFinset).card ∧
      (p.publishAll calls).2.countP PubEvent.isNamespaceNew
        = (p.publishAll calls).2.countP PubEvent.isSetFace ∧
      (p.publishAll calls).2.countP PubEvent.isHandlerNew
        = (p.publishAll calls).2.countP PubEvent.isSetFace := by
  induction calls generalizing p with
  | nil => simp [AnnotationPublisher.publishAll]
  | cons call rest ih =>
    rw [publishAll_cons]
    cases hf : mapFind p.handlers_ call.engine with
    | some h =>
      have hmem : call.engine ∈ (mapKeys p.handlers_).toFinset := by
        rw [List.mem_toFinset]
        by_contra hn
        rw [← mapFind_eq_none_iff, hf] at hn
        cases hn
      rw [publish_of_some p _ _ _ h hf]
      obtain ⟨i1, i2, i3⟩ := ih p
      refine ⟨?_, ?_, ?_⟩
      · simp only [List.countP_append, List.map_cons, List.toFinset_cons,
          Finset.insert_sdiff_of_mem _ hmem, i1]
        simp [List.countP_cons, PubEvent.isSetFace]
      · simp only [List.countP_append, i2]
        simp [List.countP_cons, PubEvent.isSetFace, PubEvent.isNamespaceNew]
      · simp only [List.countP_append, i3]
        simp [List.countP_cons, PubEvent.isSetFace, PubEvent.isHandlerNew]
    | none =>
      have hnot : call.engine ∉ (mapKeys p.handlers_).toFinset := by
        rw [List.mem_toFinset]
        exact (mapFind_eq_none_iff _ _).1 hf
      rw [publish_of_none p _ _ _ hf]
      obtain ⟨i1, i2, i3⟩ :=
        ih
          { p with
            namespaces_ :=
              mapAssign p.namespaces_ call.engine
                ⟨p.baseName_.append call.engine, some p.allocated_, true⟩
            handlers_ := mapAssign p.handlers_ call.engine p.allocated_
            allocated_ := p.allocated_ + 1 }
      have hkeys :
          (mapKeys (mapAssign p.handlers_ call.engine p.allocated_)).toFinset
            = insert call.engine (mapKeys p.handlers_).toFinset := by
        rw [mapKeys_mapAssign_of_none _ _ _ hf]
        ext x
        simp [or_comm]
      refine ⟨?_, ?_, ?_⟩
      · simp only [List.countP_append, List.map_cons, List.toFinset_cons, i1, hkeys,
          card_insert_sdiff_of_not_mem _ _ _ hnot]
        simp [List.countP_cons, PubEvent.isSetFace]
        omega
      · simp only [List.countP_append, i2]
        simp [List.countP_cons, PubEvent.isSetFace, PubEvent.isNamespaceNew]
      · simp only [List.countP_append, i3]
        simp [List.countP_cons, PubEvent.isSetFace, PubEvent.isHandlerNew]

theorem name_append_injective (n : Name) (x y : String) (h : n.append x = n.append y) :
    x = y := by
  simpa [Name.append] using h

theorem publish_baseName (p : AnnotationPublisher) (frameNo : Nat) (a : AnnotationArray)
    (engine : String) : (p.publish frameNo a engine).1.baseName_ = p.baseName_ := by
  cases hf : mapFind p.handlers_ engine with
  | none => rw [publish_of_none p _ _ _ hf]
  | some h => rw [publish_of_some p _ _ _ h hf]

theorem publishAll_baseName (p : AnnotationPublisher) (calls : List PublishCall) :
    (p.publishAll calls).1.baseName_ = p.baseName_ := by
  induction calls generalizing p with
  | nil => rfl
  | cons call rest ih => rw [publishAll_cons, ih, publish_baseName]

/-- Each engine gets its registration once, on its first publish. -/
theorem creations_per_engine (p : AnnotationPublisher) (calls : List PublishCall)
    (e : String) :
    (p.publishAll calls).2.countP (PubEvent.isSetFaceOf (p.baseName_.append e))
      = if e ∈ calls.map PublishCall.engine ∧ mapFind p.handlers_ e = none then 1 else 0 := by
  induction calls generalizing p with
  | nil => simp [AnnotationPublisher.publishAll]
  | cons call rest ih =>
    rw [publishAll_cons, List.countP_append]
    cases hf : mapFind p.handlers_ call.engine with
    | some h =>
      rw [publish_of_some p _ _ _ h hf, ih p]
      by_cases he : e = call.engine
      · subst he
        simp [hf, List.countP_cons, PubEvent.isSetFaceOf]
      · simp [he, List.countP_cons, PubEvent.isSetFaceOf]
    | none =>
      rw [publish_of_none p _ _ _ hf]
      have hi :=
        ih
          { p with
            namespaces_ :=
              mapAssign p.namespaces_ call.engine
                ⟨p.baseName_.append call.engine, some p.allocated_, true⟩
            handlers_ := mapAssign p.handlers_ call.engine p.allocated_
            allocated_ := p.allocated_ + 1 }
      simp only at hi
      rw [hi]
      by_cases he : e = call.engine
      · subst he
        simp [hf, mapFind_mapAssign_self, List.countP_cons, PubEvent.isSetFaceOf]
      · have hne : ¬ p.baseName_.append call.engine = p.baseName_.append e :=
          fun hc => he (name_append_injective _ _ _ hc).symm
        simp [he, hne, mapFind_mapAssign_ne _ _ _ _ he, List.countP_cons,
          PubEvent.isSetFaceOf]

theorem handlers_publish_mono (p : AnnotationPublisher) (frameNo : Nat)
    (a : AnnotationArray) (engine e : String) (h : Nat)
    (he : mapFind p.handlers_ e = some h) :
    mapFind (p.publish frameNo a engine).1.handlers_ e = some h := by
  cases hf : mapFind p.handlers_ engine with
  | some h' =>
    rw [publish_of_some p _ _ _ h' hf]
    exact he
  | none =>
    rw [publish_of_none p _ _ _ hf]
    have hne : e ≠ engine := by
      intro hc
      rw [hc, hf] at he
      cases he
    show mapFind (mapAssign p.handlers_ engine p.allocated_) e = some h
    rw [mapFind_mapAssign_ne _ _ _ _ hne]
    exact he

theorem handlers_publishAll_mono (p : AnnotationPublisher) (calls : List PublishCall)
    (e : String) (h : Nat) (he : mapFind p.handlers_ e = some h) :
    mapFind (p.publishAll calls).1.handlers_ e = some h := by
  induction calls generalizing p with
  | nil => exact he
  | cons call rest ih =>
    rw [publishAll_cons]
    exact ih _ (handlers_publish_mono p _ _ _ e h he)

theorem publish_target (p : AnnotationPublisher) (frameNo : Nat) (a : AnnotationArray)
    (engine : String) :
    ∃ h, setObjects (p.publish frameNo a engine).2
          = [PubEvent.setObject h frameNo a.get "application/json"] ∧
      targets (p.publish frameNo a engine).2 = [h] ∧
      mapFind (p.publish frameNo a engine).1.handlers_ engine = some h := by
  cases hf : mapFind p.handlers_ engine with
  | some h =>
    rw [publish_of_some p _ _ _ h hf]
    exact ⟨h, rfl, rfl, hf⟩
  | none =>
    rw [publish_of_none p _ _ _ hf]
    exact ⟨p.allocated_, rfl, rfl, mapFind_mapAssign_self _ _ _⟩

theorem targets_append (xs ys : List PubEvent) :
    targets (xs ++ ys) = targets xs ++ targets ys := by
  simp [targets]

theorem targets_publishAll (p : AnnotationPublisher) (calls : List PublishCall) :
    (targets (p.publishAll calls).2).map some
      = calls.map (fun call => mapFind (p.publishAll calls).1.handlers_ call.engine) := by
  induction calls generalizing p with
  | nil => rfl
  | cons call rest ih =>
    obtain ⟨h, -, ht, hh⟩ := publish_target p call.frameNo call.a call.engine
    rw [publishAll_cons]
    simp only [targets_append, ht, List.map_append, List.map_cons, List.map_nil,
      List.singleton_append, ih]
    rw [handlers_publishAll_mono _ rest _ h hh]

theorem registered_new (base : Name) : Registered (AnnotationPublisher.new base) := by
  intro e h hf
  simp [AnnotationPublisher.new, mapFind] at hf

theorem registered_publish (p : AnnotationPublisher) (frameNo : Nat) (a : AnnotationArray)
    (engine : String) (hp : Registered p) : Registered (p.publish frameNo a engine).1 := by
  cases hf : mapFind p.handlers_ engine with
  | some h =>
    rw [publish_of_some p _ _ _ h hf]
    exact hp
  | none =>
    rw [publish_of_none p _ _ _ hf]
    intro e h he
    by_cases hne : e = engine
    · subst hne
      have he' : mapFind (mapAssign p.handlers_ e p.allocated_) e = some h := he
      rw [mapFind_mapAssign_self] at he'
      cases he'
      exact mapFind_mapAssign_self _ _ _
    · have he' : mapFind (mapAssign p.handlers_ engine p.allocated_) e = some h := he
      rw [mapFind_mapAssign_ne _ _ _ _ hne] at he'
      show mapFind (mapAssign p.namespaces_ engine _) e = _
      rw [mapFind_mapAssign_ne _ _ _ _ hne]
      exact hp e h he'

theorem registered_publishAll (p : AnnotationPublisher) (calls : List PublishCall)
    (hp : Registered p) : Registered (p.publishAll calls).1 := by
  induction calls generalizing p with
  | nil => exact hp
  | cons call rest ih =>
    rw [publishAll_cons]
    exact ih _ (registered_publish p _ _ _ hp)

/-! ## Channel idempotence (C6) -/

/-- C6: over any sequence of `publish` calls on a new publisher, the number of channels
created (counted by the `setFace` registrations, and equally by the `Namespace` and the
handler constructions) is the number of distinct engine ids in the sequence; each engine
id seen is registered exactly once, the others never; and every `setObject` goes to the
handler cached for its call's engine, so calls with the same engine id use the same
handler, whatever the frame numbers and the calls in between. -/
theorem channel_idempotence (base : Name) (calls : List PublishCall) :
    ((AnnotationPublisher.new base).publishAll calls).2.countP PubEvent.isSetFace
        = (calls.map PublishCall.engine).dedup.length ∧
      ((AnnotationPublisher.new base).publishAll calls).2.countP PubEvent.isNamespaceNew
        = (calls.map PublishCall.engine).dedup.length ∧
      ((AnnotationPublisher.new base).publishAll calls).2.countP PubEvent.isHandlerNew
        = (calls.map PublishCall.engine).dedup.length ∧
      (∀ e : String,
        ((AnnotationPublisher.new base).publishAll calls).2.countP
            (PubEvent.isSetFaceOf (base.append e))
          = if e ∈ calls.map PublishCall.engine then 1 else 0) ∧
      (targets ((AnnotationPublisher.new base).publishAll calls).2).map some
        = calls.map
            (fun call =>
              mapFind ((AnnotationPublisher.new base).publishAll calls).1.handlers_
                call.engine) := by
  obtain ⟨h1, h2, h3⟩ := creations_count (AnnotationPublisher.new base) calls
  have hcard :
      ((calls.map PublishCall.engine).toFinset \
          (mapKeys (AnnotationPublisher.new base).handlers_).toFinset).card
        = (calls.map PublishCall.engine).dedup.length := by
    simp [AnnotationPublisher.new, mapKeys, List.card_toFinset]
  rw [hcard] at h1
  refine ⟨h1, h2.trans h1, h3.trans h1, ?_, targets_publishAll _ _⟩
  intro e
  have := creations_per_engine (AnnotationPublisher.new base) calls e
  simpa [AnnotationPublisher.new, mapFind] using this

/-! ## Publish forwarding (C7) -/

/-- C7: after any sequence of earlier `publish` calls on a new publisher,
`publish(frameNo, a, engine)` makes exactly one `setObject` call, with
`(frameNo, a.get(), "application/json")`, on the handler `h` that is attached to the
registered namespace named `base / engine`; publishing the same `(engine, frameNo)` again
is not suppressed: it makes the same `setObject` call on the same handler, and nothing
else. -/
theorem publish_forwards_without_dedup (base : Name) (earlier : List PublishCall)
    (frameNo : Nat) (a : AnnotationArray) (engine : String) :
    ∃ h,
      setObjects
          ((((AnnotationPublisher.new base).publishAll earlier).1.publish frameNo a
            engine).2)
        = [PubEvent.setObject h frameNo a.get "application/json"] ∧
      mapFind
          ((((AnnotationPublisher.new base).publishAll earlier).1.publish frameNo a
            engine).1).namespaces_ engine
        = some ⟨base.append engine, some h, true⟩ ∧
      ((((AnnotationPublisher.new base).publishAll earlier).1.publish frameNo a
          engine).1.publish frameNo a engine).2
        = [PubEvent.setObject h frameNo a.get "application/json"] ∧
      setObjects
          (((AnnotationPublisher.new base).publishAll
            (earlier ++ [⟨frameNo, a, engine⟩, ⟨frameNo, a, engine⟩])).2)
        = setObjects ((AnnotationPublisher.new base).publishAll earlier).2 ++
            [PubEvent.setObject h frameNo a.get "application/json",
              PubEvent.setObject h frameNo a.get "application/json"] := by
  have hreg :=
    registered_publishAll (AnnotationPublisher.new base) earlier (registered_new base)
  have hbase := publishAll_baseName (AnnotationPublisher.new base) earlier
  obtain ⟨h, hso, -, hh⟩ :=
    publish_target ((AnnotationPublisher.new base).publishAll earlier).1 frameNo a engine
  have hreg1 :=
    registered_publish ((AnnotationPublisher.new base).publishAll earlier).1 frameNo a engine
      hreg
  have hns := hreg1 engine h hh
  rw [publish_baseName, hbase] at hns
  have hsecond :=
    publish_of_some
      (((AnnotationPublisher.new base).publishAll earlier).1.publish frameNo a engine).1
      frameNo a engine h hh
  refine ⟨h, hso, hns, ?_, ?_⟩
  · rw [hsecond]
  · rw [publishAll_append]
    simp only [publishAll_cons, AnnotationPublisher.publishAll, hsecond, List.append_nil]
    simp only [setObjects, List.filter_append] at hso ⊢
    rw [hso]
    rfl

/-! ## Malformed upstream records (C11) -/

/-- The checked part of the record: when `"playbackNo"` is not a number or
`"annotations"` is not an array (missing included), `readAnnotations` returns the empty
string and leaves `frameNo` and `engine` alone, and the loop turn calls nothing and keeps
the publisher. -/
theorem readAnnotations_drops_unchecked_fields (parse : String → Option CJson)
    (print : CJson → String) (setup len : Int) (annotations : String) (frameNo : Nat)
    (engine : String) (db_pipe db : Int) (item : CJson) (apub : AnnotationPublisher)
    (hlen : len > 0) (hdump : dumpAnnotations setup db_pipe = some db)
    (hparse : parse annotations = some item)
    (hbad :
      cJSON_IsNumber (cJSON_GetObjectItem (some item) "playbackNo") = false ∨
        cJSON_IsArray (cJSON_GetObjectItem (some item) "annotations") = false) :
    readAnnotations parse print setup len annotations frameNo engine db_pipe
        = .returned "" frameNo engine db ∧
      mainLoopTurn parse print setup len annotations apub frameNo db_pipe
        = .continued apub [] frameNo db := by
  have hread : ∀ eng0 : String,
      readAnnotations parse print setup len annotations frameNo eng0 db_pipe
        = .returned "" frameNo eng0 db := by
    intro eng0
    rcases hbad with h | h <;> simp [readAnnotations, hlen, hdump, hparse, h]
  refine ⟨hread engine, ?_⟩
  simp [mainLoopTurn, hread ""]

/-- The checked part at a concrete input: a record whose `"playbackNo"` is text. -/
theorem readAnnotations_drops_unchecked_fields_witness :
    mainLoopTurn (fun _ => some recordWithTextFrameNo) (fun _ => "[]") 0 1 "record"
        (AnnotationPublisher.new sampleBase) 0 3
      = .continued (AnnotationPublisher.new sampleBase) [] 0 3 :=
  (readAnnotations_drops_unchecked_fields (fun _ => some recordWithTextFrameNo)
    (fun _ => "[]") 0 1 "record" 0 "" 3 3 recordWithTextFrameNo
    (AnnotationPublisher.new sampleBase) (by decide) (by decide) rfl
    (Or.inl (by decide))).2

/-- C11 fails on the code: for the parsed record `{"playbackNo": 5, "annotations": []}`
the `"engine"` field is missing, the other two pass the test, and `readAnnotations`
dereferences the null `eng` instead of returning the empty string; for
`{"playbackNo": 5, "engine": 3, "annotations": []}` it builds a `std::string` from the
null `valuestring`.  In both cases the loop turn does not complete. -/
theorem malformed_engine_not_dropped :
    (cJSON_GetObjectItem (some recordWithoutEngine) "engine").isNone = true ∧
      readAnnotations (fun _ => some recordWithoutEngine) (fun _ => "[]") 0 1 "record" 0 "" 3
        = .nullDereference ∧
      mainLoopTurn (fun _ => some recordWithoutEngine) (fun _ => "[]") 0 1 "record"
          (AnnotationPublisher.new sampleBase) 0 3
        = .stopped .nullDereference ∧
      (cJSON_GetObjectItem (some recordWithNumericEngine) "engine").map CJson.type
        = some CJsonType.cJSON_Number ∧
      readAnnotations (fun _ => some recordWithNumericEngine) (fun _ => "[]") 0 1 "record" 0
          "" 3
        = .stringFromNull ∧
      mainLoopTurn (fun _ => some recordWithNumericEngine) (fun _ => "[]") 0 1 "record"
          (AnnotationPublisher.new sampleBase) 0 3
        = .stopped .stringFromNull := by
  decide

end IceAr
